import Mathlib

/-!
# Character archetype tags

A verification development for `data/src/character/character_types.h`.

The header declares one C enumeration, `character_type_e`, with three
enumerators and no explicit initialiser.  The first part of this file embeds
that declaration: the enumerators become the constructors of an inductive
type, and their integer values are computed from the declaration by the C
numbering rule (the first enumerator is 0, every later one is its predecessor
plus one unless it carries an initialiser).

The second part models the archetype registry and the per-instance operations
that the specification builds on top of the tag.  None of that code is in the
header; every such definition says so in its doc comment.
-/

namespace Maky

/-! ## The enumeration declared in the header -/

/-- One enumerator of a C `enum` declaration: its identifier and the constant
of its `= constant` initialiser when it has one. -/
structure Enumerator where
  ident : String
  init : Option Int
  deriving DecidableEq, Repr

/-- The C rule that numbers the enumerators of a declaration: an enumerator
with an initialiser takes that constant, one without takes `next`; the
enumerator after it starts from its value plus one. -/
def enumeratorValues : Int → List Enumerator → List (String × Int)
  | _, [] => []
  | next, e :: es =>
    let v := e.init.getD next
    (e.ident, v) :: enumeratorValues (v + 1) es

/-- The enumerator list of `typedef enum character_type_e { ... }`, in source
order.  No enumerator has an initialiser. -/
def character_type_e_decl : List Enumerator :=
  [ ⟨"GIANT_CHARACTER", none⟩,
    ⟨"DAEMON_CHARACTER", none⟩,
    ⟨"RAT_CHARACTER", none⟩ ]

/-- The tags of `character_type_e`: one constructor per enumerator of the
declaration.  This is the set of declared tags, not the set of values an
object of the C type can hold: the C type is an integer type (see
`CIntType` and `character_type_e_underlying`), and an integer that is the
value of no enumerator is modelled as an `Int` and decoded with `ofInt`. -/
inductive character_type_e where
  | GIANT_CHARACTER
  | DAEMON_CHARACTER
  | RAT_CHARACTER
  deriving DecidableEq, Repr

namespace character_type_e

/-- The enumerators in the order the header declares them. -/
def enumerators : List character_type_e :=
  [GIANT_CHARACTER, DAEMON_CHARACTER, RAT_CHARACTER]

/-- The identifier the header gives to each enumerator. -/
def ident : character_type_e → String
  | GIANT_CHARACTER => "GIANT_CHARACTER"
  | DAEMON_CHARACTER => "DAEMON_CHARACTER"
  | RAT_CHARACTER => "RAT_CHARACTER"

/-- The integer value of an enumerator: the value the C numbering rule gives
to its identifier in the declaration, started at 0. -/
def toInt (t : character_type_e) : Int :=
  match (enumeratorValues 0 character_type_e_decl).lookup t.ident with
  | some v => v
  | none => 0

/-- Decoding of an integer: the declared enumerator whose value it is, if there
is one. -/
def ofInt (i : Int) : Option character_type_e :=
  enumerators.find? (fun t => decide (t.toInt = i))

/-- Comparison of two tags, as C compares enumeration values: by their integer
values. -/
def lt (a b : character_type_e) : Prop := a.toInt < b.toInt

instance (a b : character_type_e) : Decidable (lt a b) := by
  unfold lt; infer_instance

/-- Indexing of a table by a tag, as C does with `table[t]`: the entry at the
tag's integer value, when that value is inside the table. -/
def index {α : Type} (table : List α) (t : character_type_e) : Option α :=
  if 0 ≤ t.toInt then table.get? t.toInt.toNat else none

end character_type_e

/-- An integer type of C, by its width in bits and its signedness. -/
structure CIntType where
  bits : Nat
  signed : Bool
  deriving DecidableEq, Repr

/-- The values an object of an integer type can hold: `[-2^(bits-1), 2^(bits-1))`
for a signed type, `[0, 2^bits)` for an unsigned one. -/
def CIntType.holds (τ : CIntType) (v : Int) : Prop :=
  if τ.signed then -(2 ^ (τ.bits - 1) : Int) ≤ v ∧ v < 2 ^ (τ.bits - 1)
  else 0 ≤ v ∧ v < 2 ^ τ.bits

instance (τ : CIntType) (v : Int) : Decidable (τ.holds v) := by
  unfold CIntType.holds; infer_instance

/-- The integer types a compiler may give to `character_type_e`.  C leaves the
choice to the implementation ("compatible with char, a signed integer type, or
an unsigned integer type"), with two conditions: no integer type is narrower
than 8 bits, and the chosen type can represent the value of every
enumerator.  The values of the C type `character_type_e` are the values such a
type holds. -/
def character_type_e_underlying (τ : CIntType) : Prop :=
  8 ≤ τ.bits ∧ ∀ t ∈ character_type_e.enumerators, τ.holds t.toInt

instance (τ : CIntType) : Decidable (character_type_e_underlying τ) := by
  unfold character_type_e_underlying; infer_instance

/-- The 4-byte unsigned integer type, the type the usual compilers give to an
enumeration with no negative enumerator. -/
def uint32 : CIntType := { bits := 32, signed := false }

/-! ## The archetype core

The header holds the tag only.  The registry, the instance record and its
operations are modelled from the specification, section by section. -/

open character_type_e

/-- Modelled from the spec: the `ArchetypeDescriptor` record of the data model
(`maxHealth: integer>0`, `baseDamage: integer≥0`, `moveSpeed: float>0`,
`attackCooldownTicks: integer≥0`, `specialAbilityId: optional identifier`); the
header declares no descriptor type.  The field ranges are not part of the
record: `ArchetypeDescriptor.wellFormed` checks them when the table is loaded.
`moveSpeed` is held as the rational number the configured value denotes. -/
structure ArchetypeDescriptor where
  maxHealth : Int
  baseDamage : Int
  moveSpeed : ℚ
  attackCooldownTicks : Int
  specialAbilityId : Option Nat
  deriving DecidableEq

/-- Modelled from the spec: the field ranges of a descriptor, the check that
separates a well-formed configuration row from a malformed one; no loader is
in the header. -/
def ArchetypeDescriptor.wellFormed (d : ArchetypeDescriptor) : Bool :=
  decide (0 < d.maxHealth) && decide (0 ≤ d.baseDamage) &&
    decide (0 < d.moveSpeed) && decide (0 ≤ d.attackCooldownTicks)

/-- Modelled from the spec: one row of the archetype configuration input, "a
fixed table (one row per CharacterTypeTag)"; the header has no configuration
format. -/
structure ArchetypeRow where
  tag : character_type_e
  descriptor : ArchetypeDescriptor
  deriving DecidableEq

/-- Modelled from the spec: the startup-fatal `ConfigurationError` of the error
taxonomy, "missing/invalid archetype row"; the header declares no error
type. -/
inductive ConfigurationError where
  | missingRow (tag : character_type_e)
  | invalidRow (tag : character_type_e)
  deriving DecidableEq

/-- Modelled from the spec: the `ArchetypeCatalog`, one descriptor per tag
value, populated once and read-only afterwards; the header has no catalog. -/
structure ArchetypeCatalog where
  giant : ArchetypeDescriptor
  daemon : ArchetypeDescriptor
  rat : ArchetypeDescriptor
  deriving DecidableEq

/-- Modelled from the spec: the row a configuration table supplies for one
tag.  A tag with no row is a missing row; a tag with more than one row, or with
a row outside the field ranges, is an invalid row.  The loader is not in the
header. -/
def rowFor (rows : List ArchetypeRow) (t : character_type_e) :
    Except ConfigurationError ArchetypeDescriptor :=
  match rows.filter (fun r => decide (r.tag = t)) with
  | [] => .error (.missingRow t)
  | [r] => if r.descriptor.wellFormed then .ok r.descriptor else .error (.invalidRow t)
  | _ :: _ :: _ => .error (.invalidRow t)

/-- Modelled from the spec: the startup load of the catalog from the
configuration table, failing on a missing or malformed row; the loader is not
in the header. -/
def loadCatalog (rows : List ArchetypeRow) : Except ConfigurationError ArchetypeCatalog :=
  match rowFor rows GIANT_CHARACTER with
  | .error e => .error e
  | .ok g =>
    match rowFor rows DAEMON_CHARACTER with
    | .error e => .error e
    | .ok d =>
      match rowFor rows RAT_CHARACTER with
      | .error e => .error e
      | .ok r => .ok { giant := g, daemon := d, rat := r }

/-- Modelled from the spec: `describe(tag) -> ArchetypeDescriptor`, "total and
pure", an exhaustive match over the closed tag set; the function is not in the
header. -/
def describe (cat : ArchetypeCatalog) : character_type_e → ArchetypeDescriptor
  | GIANT_CHARACTER => cat.giant
  | DAEMON_CHARACTER => cat.daemon
  | RAT_CHARACTER => cat.rat

/-- Modelled from the spec: the `CombatState` enumeration
`{Idle, Moving, Attacking, Stunned, Dead}`; the header does not declare it. -/
inductive CombatState where
  | Idle
  | Moving
  | Attacking
  | Stunned
  | Dead
  deriving DecidableEq, Repr

/-- Modelled from the spec: the `position` coordinate of an instance, taken as
a 2D integer coordinate; no operation below reads it.  The header declares no
coordinate type. -/
structure Position where
  x : Int
  y : Int
  deriving DecidableEq, Repr

/-- Modelled from the spec: the `CharacterInstance` record of the data model;
the header declares no instance type.  The ranges `0 ≤ currentHealth ≤
maxHealth` and `0 ≤ cooldownRemaining` are the predicate
`CharacterInstance.inRange`, not part of the record. -/
structure CharacterInstance where
  id : Nat
  type : character_type_e
  currentHealth : Int
  position : Position
  state : CombatState
  cooldownRemaining : Int
  deriving DecidableEq

/-- Modelled from the spec: the data-model invariant of an instance,
`0 ≤ currentHealth ≤ descriptor.maxHealth` and `cooldownRemaining ≥ 0`. -/
def CharacterInstance.inRange (cat : ArchetypeCatalog) (inst : CharacterInstance) : Prop :=
  0 ≤ inst.currentHealth ∧ inst.currentHealth ≤ (describe cat inst.type).maxHealth ∧
    0 ≤ inst.cooldownRemaining

instance (cat : ArchetypeCatalog) (inst : CharacterInstance) :
    Decidable (inst.inRange cat) := by
  unfold CharacterInstance.inRange; infer_instance

/-- Modelled from the spec: the events of the per-tick event log,
`{Death, ActionResolved, DroppedIntent}`, each carrying the id of the instance
it is about; the header declares no event type. -/
inductive Event where
  | Death (id : Nat)
  | ActionResolved (id : Nat)
  | DroppedIntent (id : Nat)
  deriving DecidableEq, Repr

/-- Modelled from the spec: the defensive `InvalidArchetype` failure of
`spawn`; the header declares no error type. -/
inductive SpawnError where
  | InvalidArchetype
  deriving DecidableEq, Repr

/-- Modelled from the spec: `spawn(type, position)`.  The type arrives as the
integer a C caller passes for a `character_type_e` argument, which may lie
outside the declared enumerators; it "fails with InvalidArchetype only if type
is outside the closed set" and otherwise "initializes currentHealth =
descriptor.maxHealth, state = Idle, cooldownRemaining = 0".  The id is the one
the simulation allots.  The function is not in the header. -/
def spawn (cat : ArchetypeCatalog) (id : Nat) (type : Int) (position : Position) :
    Except SpawnError CharacterInstance :=
  match ofInt type with
  | none => .error .InvalidArchetype
  | some t =>
    .ok { id := id, type := t, currentHealth := (describe cat t).maxHealth,
          position := position, state := .Idle, cooldownRemaining := 0 }

/-- Modelled from the spec: the clamp of a health value to `[0, maxHealth]`. -/
def clampHealth (maxHealth : Int) (h : Int) : Int :=
  min (max h 0) maxHealth

/-- Modelled from the spec: `applyDamage(instance, amount)`: "clamps
currentHealth to [0, maxHealth]; if result is 0, transitions state -> Dead and
emits a Death event.  Idempotent for already-Dead instances (no further health
change, no duplicate Death event)".  The function is not in the header. -/
def applyDamage (cat : ArchetypeCatalog) (inst : CharacterInstance) (amount : Int) :
    CharacterInstance × List Event :=
  if inst.state = .Dead then (inst, [])
  else
    let h := clampHealth (describe cat inst.type).maxHealth (inst.currentHealth - amount)
    if h = 0 then ({ inst with currentHealth := h, state := .Dead }, [.Death inst.id])
    else ({ inst with currentHealth := h }, [])

/-- Modelled from the spec: `tickCooldown(instance)`: "decrements
cooldownRemaining by 1, floored at 0".  The function is not in the header. -/
def tickCooldown (inst : CharacterInstance) : CharacterInstance :=
  { inst with cooldownRemaining := max (inst.cooldownRemaining - 1) 0 }

/-- Modelled from the spec: the triggers on the edges of the combat state
machine, the one evaluated for an instance on a tick ("exactly one transition
is evaluated per instance per tick"), or `none` when no trigger holds.  The
trigger "health reaches 0" is not listed: that edge is taken by `applyDamage`,
which is where the health changes.  The header declares no trigger type. -/
inductive Trigger where
  | none
  | moveIntent
  | arriveOrStop
  | attackIntent
  | windupElapsed
  | stunEffect
  | stunElapsed
  deriving DecidableEq, Repr

/-- Modelled from the spec: the edges of the combat state machine,
`Idle --(move intent)--> Moving`, `Moving --(arrive/stop)--> Idle`,
`Idle|Moving --(attack intent, cooldownRemaining==0)--> Attacking`,
`Attacking --(windup elapsed)--> Idle`, `any --(stun effect)--> Stunned`,
`Stunned --(stun duration elapsed)--> Idle`; `Dead` is terminal, and a trigger
with no edge from the current state leaves the state as it is.  The state
machine is not in the header. -/
def transition (s : CombatState) (cooldownRemaining : Int) (tr : Trigger) : CombatState :=
  match s, tr with
  | .Dead, _ => .Dead
  | _, .stunEffect => .Stunned
  | .Idle, .moveIntent => .Moving
  | .Moving, .arriveOrStop => .Idle
  | .Idle, .attackIntent => if cooldownRemaining = 0 then .Attacking else .Idle
  | .Moving, .attackIntent => if cooldownRemaining = 0 then .Attacking else .Moving
  | .Attacking, .windupElapsed => .Idle
  | .Stunned, .stunElapsed => .Idle
  | s, _ => s

/-- Modelled from the spec: one advance of an instance's state machine by the
trigger evaluated on this tick. -/
def advance (inst : CharacterInstance) (tr : Trigger) : CharacterInstance :=
  { inst with state := transition inst.state inst.cooldownRemaining tr }

/-- Modelled from the spec: the operations that act on an existing instance:
`applyDamage` with its amount, `tickCooldown`, and the advance of the state
machine by a trigger. -/
inductive Op where
  | damage (amount : Int)
  | cooldown
  | advance (tr : Trigger)
  deriving DecidableEq, Repr

/-- Modelled from the spec: the effect of one operation on an instance,
together with the events it emits. -/
def applyOp (cat : ArchetypeCatalog) (inst : CharacterInstance) :
    Op → CharacterInstance × List Event
  | .damage amount => applyDamage cat inst amount
  | .cooldown => (tickCooldown inst, [])
  | .advance tr => (advance inst tr, [])

/-- Modelled from the spec: a sequence of operations run on one instance, with
the event log accumulated in emission order. -/
def runOps (cat : ArchetypeCatalog) (inst : CharacterInstance) :
    List Op → CharacterInstance × List Event
  | [] => (inst, [])
  | op :: ops =>
    let r := applyOp cat inst op
    let rest := runOps cat r.1 ops
    (rest.1, r.2 ++ rest.2)

/-- Modelled from the spec: what one tick brings to one instance: the trigger
its state machine evaluates and the total damage committed to it at the end of
the tick. -/
structure TickInput where
  trigger : Trigger
  damage : Int
  deriving DecidableEq, Repr

/-- Modelled from the spec: the operations of one tick on one instance, in the
order of the simulation step: "decrement cooldown, resolve intent ..., advance
CombatStateMachine", and the health mutations of the tick "committed ... at
tick end". -/
def tickOps (i : TickInput) : List Op :=
  [.cooldown, .advance i.trigger, .damage i.damage]

/-- Modelled from the spec: a sequence of ticks run on one instance. -/
def runTicks (cat : ArchetypeCatalog) (inst : CharacterInstance) (ticks : List TickInput) :
    CharacterInstance × List Event :=
  runOps cat inst (ticks.flatMap tickOps)

/-- The number of `Death` events for instance `id` in an event log. -/
def deathCount (id : Nat) (log : List Event) : Nat :=
  log.count (.Death id)

/-- Modelled from the spec: the number of transitions into `Dead` the instance
makes along a sequence of operations: the steps that start in a state other
than `Dead` and end in `Dead`. -/
def deadEntries (cat : ArchetypeCatalog) (inst : CharacterInstance) : List Op → Nat
  | [] => 0
  | op :: ops =>
    (if inst.state ≠ .Dead ∧ (applyOp cat inst op).1.state = .Dead then 1 else 0) +
      deadEntries cat (applyOp cat inst op).1 ops

/-! ## Sample data -/

/-- The configuration used by the witnesses: the three rows of the scenario of
the specification (`RatWarrior` with `maxHealth = 20`, `Giant` with
`maxHealth = 80` and `baseDamage = 15`), the other numbers chosen freely. -/
def sampleRows : List ArchetypeRow :=
  [ ⟨GIANT_CHARACTER, ⟨80, 15, 1, 3, none⟩⟩,
    ⟨DAEMON_CHARACTER, ⟨40, 10, 3 / 2, 2, some 1⟩⟩,
    ⟨RAT_CHARACTER, ⟨20, 4, 2, 1, none⟩⟩ ]

/-- The catalog `loadCatalog` builds from `sampleRows`. -/
def sampleCatalog : ArchetypeCatalog :=
  { giant := ⟨80, 15, 1, 3, none⟩,
    daemon := ⟨40, 10, 3 / 2, 2, some 1⟩,
    rat := ⟨20, 4, 2, 1, none⟩ }

/-- A `RAT_CHARACTER` instance with 5 health left, as in the scenario of the
specification after the giant's hit. -/
def sampleRat : CharacterInstance :=
  { id := 7, type := RAT_CHARACTER, currentHealth := 5, position := ⟨0, 0⟩,
    state := .Idle, cooldownRemaining := 0 }

/-- Four ticks for `sampleRat`: a move with 3 damage, an attack intent with 25
damage (fatal), then a stun effect and an idle tick after death. -/
def sampleTicks : List TickInput :=
  [⟨.moveIntent, 3⟩, ⟨.attackIntent, 25⟩, ⟨.stunEffect, 4⟩, ⟨.none, 0⟩]

/-! ## Facts about the enumeration -/

section Enumeration

open character_type_e

theorem toInt_GIANT : toInt GIANT_CHARACTER = 0 := by decide

theorem toInt_DAEMON : toInt DAEMON_CHARACTER = 1 := by decide

theorem toInt_RAT : toInt RAT_CHARACTER = 2 := by decide

theorem toInt_cases (t : character_type_e) : toInt t = 0 ∨ toInt t = 1 ∨ toInt t = 2 := by
  cases t
  · exact Or.inl toInt_GIANT
  · exact Or.inr (Or.inl toInt_DAEMON)
  · exact Or.inr (Or.inr toInt_RAT)

theorem ofInt_toInt (t : character_type_e) : ofInt (toInt t) = some t := by
  cases t <;> decide

theorem ofInt_eq_none_of_ne (i : Int) (h0 : i ≠ 0) (h1 : i ≠ 1) (h2 : i ≠ 2) :
    ofInt i = none := by
  have g0 : ¬ (0 : Int) = i := fun h => h0 h.symm
  have g1 : ¬ (1 : Int) = i := fun h => h1 h.symm
  have g2 : ¬ (2 : Int) = i := fun h => h2 h.symm
  simp [ofInt, enumerators, List.find?, toInt_GIANT, toInt_DAEMON, toInt_RAT, g0, g1, g2]

theorem ofInt_eq_some_iff (i : Int) (t : character_type_e) :
    ofInt i = some t ↔ toInt t = i := by
  constructor
  · intro h
    have hp := List.find?_some h
    simpa using hp
  · intro h
    rw [← h]
    exact ofInt_toInt t

theorem holds_small (τ : CIntType) (h8 : 8 ≤ τ.bits) (v : Int) (h0 : 0 ≤ v) (h1 : v < 128) :
    τ.holds v := by
  have hp : (2 : Int) ^ 7 ≤ 2 ^ (τ.bits - 1) :=
    pow_le_pow_right₀ (by norm_num) (by omega)
  have hq : (2 : Int) ^ 7 ≤ 2 ^ τ.bits :=
    pow_le_pow_right₀ (by norm_num) (by omega)
  have h7 : (2 : Int) ^ 7 = 128 := by norm_num
  unfold CIntType.holds
  split
  · constructor <;> omega
  · constructor <;> omega

/-- C1, counterexample: with the 4-byte unsigned type as the type of
`character_type_e`, the integer 3 is a value of the C type and is the value of
none of the three enumerators; so not every value of the type is one of
`GIANT_CHARACTER`, `DAEMON_CHARACTER`, `RAT_CHARACTER`. -/
theorem character_type_e_not_closed :
    character_type_e_underlying uint32 ∧ uint32.holds 3 ∧
      (∀ t : character_type_e, toInt t ≠ 3) ∧ ofInt 3 = none ∧
      ¬ (∀ v : Int, uint32.holds v → ∃ t : character_type_e, toInt t = v) := by
  have h3 : ∀ t : character_type_e, toInt t ≠ 3 := by
    intro t; cases t <;> decide
  have hu : character_type_e_underlying uint32 := by
    refine ⟨by decide, ?_⟩
    intro t _
    exact holds_small uint32 (by decide) (toInt t)
      (by rcases toInt_cases t with h | h | h <;> omega)
      (by rcases toInt_cases t with h | h | h <;> omega)
  have hh : uint32.holds 3 := holds_small uint32 (by decide) 3 (by decide) (by decide)
  refine ⟨hu, hh, h3, by decide, ?_⟩
  intro hall
  obtain ⟨t, ht⟩ := hall 3 hh
  exact h3 t ht

/-- C1, as amended: the declaration has exactly three enumerators,
`GIANT_CHARACTER`, `DAEMON_CHARACTER` and `RAT_CHARACTER`, and their integer
values are pairwise distinct.  Whatever integer type the compiler gives to
`character_type_e`, the value of every tag is a value of that type, a value of
the type is the value of a tag exactly when it is 0, 1 or 2, and then of one
tag only; the type also holds values that are the value of no tag. -/
theorem character_type_e_three_tags (τ : CIntType) (hτ : character_type_e_underlying τ) :
    character_type_e_decl.map Enumerator.ident =
        ["GIANT_CHARACTER", "DAEMON_CHARACTER", "RAT_CHARACTER"] ∧
      enumerators.map ident = character_type_e_decl.map Enumerator.ident ∧
      (toInt GIANT_CHARACTER ≠ toInt DAEMON_CHARACTER ∧
        toInt GIANT_CHARACTER ≠ toInt RAT_CHARACTER ∧
        toInt DAEMON_CHARACTER ≠ toInt RAT_CHARACTER) ∧
      ((enumeratorValues 0 character_type_e_decl).map Prod.snd).Nodup ∧
      (∀ t : character_type_e, τ.holds (toInt t)) ∧
      (∀ v : Int, τ.holds v →
        ((∃ t : character_type_e, toInt t = v) ↔ (v = 0 ∨ v = 1 ∨ v = 2))) ∧
      (∀ a b : character_type_e, toInt a = toInt b → a = b) ∧
      (∃ v : Int, τ.holds v ∧ ∀ t : character_type_e, toInt t ≠ v) := by
  refine ⟨by decide, by decide, ⟨by decide, by decide, by decide⟩, by decide, ?_, ?_, ?_, ?_⟩
  · intro t
    apply hτ.2 t
    cases t <;> simp [enumerators]
  · intro v _
    constructor
    · rintro ⟨t, rfl⟩
      exact toInt_cases t
    · rintro (h | h | h)
      · exact ⟨GIANT_CHARACTER, by rw [h]; exact toInt_GIANT⟩
      · exact ⟨DAEMON_CHARACTER, by rw [h]; exact toInt_DAEMON⟩
      · exact ⟨RAT_CHARACTER, by rw [h]; exact toInt_RAT⟩
  · intro a b h
    have ha := ofInt_toInt a
    rw [h, ofInt_toInt b] at ha
    exact (Option.some.inj ha).symm
  · refine ⟨3, holds_small τ hτ.1 3 (by decide) (by decide), ?_⟩
    intro t
    cases t <;> decide

/-- Witness for C1: a signed 8-bit type, the narrowest a compiler may choose,
can be the type of `character_type_e`; the value of `RAT_CHARACTER` is a value
of it. -/
theorem character_type_e_three_tags_witness :
    character_type_e_underlying ⟨8, true⟩ ∧
      CIntType.holds ⟨8, true⟩ (toInt RAT_CHARACTER) :=
  ⟨by decide,
   (character_type_e_three_tags ⟨8, true⟩ (by decide)).2.2.2.2.1 RAT_CHARACTER⟩

/-- C2: the tag round-trips through its integer value: the values fixed by the
declaration order are 0, 1 and 2, decoding the value of a tag gives the tag
back, the tag-to-integer map is injective, and an integer other than 0, 1, 2
decodes to no tag. -/
theorem character_type_e_roundtrip :
    (toInt GIANT_CHARACTER = 0 ∧ toInt DAEMON_CHARACTER = 1 ∧ toInt RAT_CHARACTER = 2) ∧
      (∀ t : character_type_e, ofInt (toInt t) = some t) ∧
      Function.Injective toInt ∧
      (∀ i : Int, i ≠ 0 → i ≠ 1 → i ≠ 2 → ofInt i = none) := by
  refine ⟨⟨toInt_GIANT, toInt_DAEMON, toInt_RAT⟩, ofInt_toInt, ?_, ofInt_eq_none_of_ne⟩
  intro a b h
  have ha := ofInt_toInt a
  rw [h, ofInt_toInt b] at ha
  exact (Option.some.inj ha).symm

/-- Witness for C2: the integer 3 decodes to no tag, and 1 decodes to
`DAEMON_CHARACTER`, the tag whose value it is. -/
theorem character_type_e_roundtrip_witness :
    ofInt 3 = none ∧ ofInt (toInt DAEMON_CHARACTER) = some DAEMON_CHARACTER :=
  ⟨character_type_e_roundtrip.2.2.2 3 (by decide) (by decide) (by decide),
   character_type_e_roundtrip.2.1 DAEMON_CHARACTER⟩

/-- C3: comparison of tags by enumerator value is a strict total order: of
`a < b`, `a = b`, `b < a` exactly one holds, the order is transitive, and it
follows the declaration order
`GIANT_CHARACTER < DAEMON_CHARACTER < RAT_CHARACTER`. -/
theorem character_type_e_total_order (a b c : character_type_e) :
    ((lt a b ∧ a ≠ b ∧ ¬ lt b a) ∨ (¬ lt a b ∧ a = b ∧ ¬ lt b a) ∨
        (¬ lt a b ∧ a ≠ b ∧ lt b a)) ∧
      (lt a b → lt b c → lt a c) ∧
      (lt GIANT_CHARACTER DAEMON_CHARACTER ∧ lt DAEMON_CHARACTER RAT_CHARACTER) := by
  refine ⟨?_, ?_, by decide, by decide⟩
  · cases a <;> cases b <;> decide
  · unfold lt
    intro hab hbc
    exact Int.lt_trans hab hbc

/-- Witness for C3: transitivity applied to the chain of the three tags. -/
theorem character_type_e_total_order_witness :
    lt GIANT_CHARACTER DAEMON_CHARACTER ∧ lt DAEMON_CHARACTER RAT_CHARACTER ∧
      lt GIANT_CHARACTER RAT_CHARACTER :=
  ⟨by decide, by decide,
   (character_type_e_total_order GIANT_CHARACTER DAEMON_CHARACTER RAT_CHARACTER).2.1
     (by decide) (by decide)⟩

/-- C9: no enumerator of the declaration has an initialiser, so the C numbering
rule gives the three enumerators the contiguous values 0, 1, 2; every tag
value lies in `[0, 3)`, every integer of `[0, 3)` is the value of a tag, and
indexing a 3-entry table by a tag is in bounds and reaches every entry. -/
theorem character_type_e_values_contiguous :
    (∀ e ∈ character_type_e_decl, e.init = none) ∧
      enumeratorValues 0 character_type_e_decl =
        [("GIANT_CHARACTER", 0), ("DAEMON_CHARACTER", 1), ("RAT_CHARACTER", 2)] ∧
      enumerators.map toInt = [0, 1, 2] ∧
      (∀ t : character_type_e, 0 ≤ toInt t ∧ toInt t < 3) ∧
      (∀ i : Int, 0 ≤ i → i < 3 → ∃ t : character_type_e, toInt t = i) ∧
      (∀ (α : Type) (table : List α), table.length = 3 →
        (∀ t : character_type_e, ∃ x, index table t = some x) ∧
        (∀ k : Nat, k < 3 → ∃ t : character_type_e, index table t = table.get? k)) := by
  refine ⟨by decide, by decide, by decide, ?_, ?_, ?_⟩
  · intro t; cases t <;> decide
  · intro i h0 h3
    have h : i = 0 ∨ i = 1 ∨ i = 2 := by omega
    rcases h with h | h | h
    · exact ⟨GIANT_CHARACTER, by rw [h]; exact toInt_GIANT⟩
    · exact ⟨DAEMON_CHARACTER, by rw [h]; exact toInt_DAEMON⟩
    · exact ⟨RAT_CHARACTER, by rw [h]; exact toInt_RAT⟩
  · intro α table hlen
    match table, hlen with
    | [x, y, z], _ =>
      constructor
      · intro t
        cases t
        · exact ⟨x, by simp [index, toInt_GIANT]⟩
        · exact ⟨y, by simp [index, toInt_DAEMON]⟩
        · exact ⟨z, by simp [index, toInt_RAT]⟩
      · intro k hk
        have h : k = 0 ∨ k = 1 ∨ k = 2 := by omega
        rcases h with h | h | h
        · exact ⟨GIANT_CHARACTER, by subst h; simp [index, toInt_GIANT]⟩
        · exact ⟨DAEMON_CHARACTER, by subst h; simp [index, toInt_DAEMON]⟩
        · exact ⟨RAT_CHARACTER, by subst h; simp [index, toInt_RAT]⟩

/-- Witness for C9: a concrete 3-entry table indexed by `RAT_CHARACTER`, the
last tag, yields an entry. -/
theorem character_type_e_values_contiguous_witness :
    [10, 20, 30].length = 3 ∧ ∃ x, index [10, 20, 30] RAT_CHARACTER = some x :=
  ⟨by decide,
   ((character_type_e_values_contiguous.2.2.2.2.2 Nat [10, 20, 30] (by decide)).1
     RAT_CHARACTER)⟩

end Enumeration

/-! ## Facts about the catalog -/

section Catalog

open character_type_e

theorem rowFor_ok {rows : List ArchetypeRow} {t : character_type_e} {d : ArchetypeDescriptor}
    (h : rowFor rows t = .ok d) :
    d.wellFormed = true ∧
      rows.filter (fun r => decide (r.tag = t)) = [⟨t, d⟩] := by
  unfold rowFor at h
  split at h
  · cases h
  · rename_i r hr
    split at h
    · rename_i hwf
      cases h
      have hmem : r ∈ rows.filter (fun r => decide (r.tag = t)) := by
        rw [hr]; exact List.mem_singleton.mpr rfl
      have htag : r.tag = t := by simpa using (List.mem_filter.mp hmem).2
      refine ⟨hwf, ?_⟩
      rw [hr, ← htag]
    · cases h
  · cases h

theorem loadCatalog_ok {rows : List ArchetypeRow} {cat : ArchetypeCatalog}
    (h : loadCatalog rows = .ok cat) (t : character_type_e) :
    rowFor rows t = .ok (describe cat t) := by
  unfold loadCatalog at h
  split at h
  · cases h
  · rename_i g hg
    split at h
    · cases h
    · rename_i d hd
      split at h
      · cases h
      · rename_i r hr
        cases h
        cases t
        · exact hg
        · exact hd
        · exact hr

theorem wellFormed_iff (d : ArchetypeDescriptor) :
    d.wellFormed = true ↔
      0 < d.maxHealth ∧ 0 ≤ d.baseDamage ∧ 0 < d.moveSpeed ∧ 0 ≤ d.attackCooldownTicks := by
  simp [ArchetypeDescriptor.wellFormed, and_assoc]

theorem maxHealth_pos_of_load {rows : List ArchetypeRow} {cat : ArchetypeCatalog}
    (h : loadCatalog rows = .ok cat) (t : character_type_e) :
    0 < (describe cat t).maxHealth :=
  ((wellFormed_iff _).mp (rowFor_ok (loadCatalog_ok h t)).1).1

theorem loadCatalog_sampleRows : loadCatalog sampleRows = .ok sampleCatalog := by
  simp [loadCatalog, rowFor, sampleRows, sampleCatalog, ArchetypeDescriptor.wellFormed]

/-- C4: on a catalog that loaded, `describe` is a total function on tags: for
every tag it returns the descriptor of the one row the table has for that tag,
and that descriptor has `maxHealth > 0` and `moveSpeed > 0`. -/
theorem describe_total_positive (rows : List ArchetypeRow) (cat : ArchetypeCatalog)
    (h : loadCatalog rows = .ok cat) (t : character_type_e) :
    0 < (describe cat t).maxHealth ∧ 0 < (describe cat t).moveSpeed ∧
      (∃ r ∈ rows, r.tag = t ∧ r.descriptor = describe cat t) ∧
      (∀ r ∈ rows, r.tag = t → r.descriptor = describe cat t) := by
  have hrow := rowFor_ok (loadCatalog_ok h t)
  have hwf := (wellFormed_iff _).mp hrow.1
  have hfilter := hrow.2
  refine ⟨hwf.1, hwf.2.2.1, ?_, ?_⟩
  · have hmem : (⟨t, describe cat t⟩ : ArchetypeRow) ∈
        rows.filter (fun r => decide (r.tag = t)) := by
      rw [hfilter]; exact List.mem_singleton.mpr rfl
    exact ⟨_, (List.mem_filter.mp hmem).1, rfl, rfl⟩
  · intro r hr htag
    have hmem : r ∈ rows.filter (fun r => decide (r.tag = t)) :=
      List.mem_filter.mpr ⟨hr, by simpa using htag⟩
    rw [hfilter] at hmem
    rw [List.mem_singleton.mp hmem]

/-- Witness for C4: the sample configuration loads, and its `RAT_CHARACTER`
descriptor has positive `maxHealth` and `moveSpeed`. -/
theorem describe_total_positive_witness :
    loadCatalog sampleRows = .ok sampleCatalog ∧
      0 < (describe sampleCatalog RAT_CHARACTER).maxHealth ∧
      0 < (describe sampleCatalog RAT_CHARACTER).moveSpeed :=
  ⟨loadCatalog_sampleRows,
   (describe_total_positive sampleRows sampleCatalog loadCatalog_sampleRows RAT_CHARACTER).1,
   (describe_total_positive sampleRows sampleCatalog loadCatalog_sampleRows RAT_CHARACTER).2.1⟩

end Catalog

/-! ## Facts about the instance operations -/

section Instance

open character_type_e

/-- C5: for every tag and every position, `spawn` succeeds and yields an instance
of that tag at that position with `currentHealth` equal to the
`maxHealth` of its descriptor, state `Idle` and `cooldownRemaining` 0; and
`spawn` fails only on a type value that is none of the three tags, with
`InvalidArchetype`. -/
theorem spawn_initial_state (cat : ArchetypeCatalog) (id : Nat) :
    (∀ (t : character_type_e) (pos : Position),
        ∃ inst, spawn cat id (toInt t) pos = .ok inst ∧
          inst.id = id ∧ inst.type = t ∧ inst.position = pos ∧
          inst.currentHealth = (describe cat t).maxHealth ∧
          inst.state = .Idle ∧ inst.cooldownRemaining = 0) ∧
      (∀ (raw : Int) (pos : Position) (e : SpawnError),
        spawn cat id raw pos = .error e →
          e = .InvalidArchetype ∧ ofInt raw = none ∧ ∀ t : character_type_e, toInt t ≠ raw) ∧
      (∀ (raw : Int) (pos : Position), raw ≠ 0 → raw ≠ 1 → raw ≠ 2 →
        spawn cat id raw pos = .error .InvalidArchetype) := by
  refine ⟨?_, ?_, ?_⟩
  · intro t pos
    refine ⟨⟨id, t, (describe cat t).maxHealth, pos, .Idle, 0⟩, ?_, rfl, rfl, rfl, rfl, rfl, rfl⟩
    simp [spawn, ofInt_toInt]
  · intro raw pos e h
    unfold spawn at h
    split at h
    · rename_i hnone
      refine ⟨by cases e; rfl, hnone, ?_⟩
      intro t ht
      have := (ofInt_eq_some_iff raw t).mpr ht
      rw [hnone] at this
      cases this
    · cases h
  · intro raw pos h0 h1 h2
    simp [spawn, ofInt_eq_none_of_ne raw h0 h1 h2]

/-- Witness for C5: spawning with the type value 7, which is no tag, fails
with `InvalidArchetype`; spawning a `RAT_CHARACTER` gives health 20. -/
theorem spawn_initial_state_witness :
    spawn sampleCatalog 0 7 ⟨0, 0⟩ = .error .InvalidArchetype ∧
      ∃ inst, spawn sampleCatalog 0 (toInt RAT_CHARACTER) ⟨0, 0⟩ = .ok inst ∧
        inst.currentHealth = 20 :=
  ⟨(spawn_initial_state sampleCatalog 0).2.2 7 ⟨0, 0⟩ (by decide) (by decide) (by decide),
   match (spawn_initial_state sampleCatalog 0).1 RAT_CHARACTER ⟨0, 0⟩ with
   | ⟨inst, hok, _, _, _, hh, _, _⟩ => ⟨inst, hok, hh⟩⟩

theorem clampHealth_bounds (m h : Int) (hm : 0 ≤ m) :
    0 ≤ clampHealth m h ∧ clampHealth m h ≤ m := by
  unfold clampHealth
  constructor
  · exact le_min (le_max_right _ _) hm
  · exact min_le_right _ _

theorem clampHealth_sub_le (m h a : Int) (hh : 0 ≤ h) (ha : 0 ≤ a) :
    clampHealth m (h - a) ≤ h := by
  unfold clampHealth
  apply le_trans (min_le_left _ _)
  apply max_le
  · omega
  · exact hh

/-- C6: on a loaded catalog, for an instance within its data-model ranges and
an amount `≥ 0`, `applyDamage` does not increase `currentHealth` and leaves it
in `[0, maxHealth]`; when the resulting health is 0 the resulting state is
`Dead`; a `Death` event for the instance is emitted exactly when a live instance
reaches health 0, and nothing else is emitted; and applied to an instance
that is already `Dead` it returns the instance unchanged with no
event.  The result is again within the data-model ranges. -/
theorem applyDamage_clamps (rows : List ArchetypeRow) (cat : ArchetypeCatalog)
    (hload : loadCatalog rows = .ok cat) (inst : CharacterInstance) (amount : Int)
    (hamount : 0 ≤ amount) (hrange : inst.inRange cat) :
    (applyDamage cat inst amount).1.currentHealth ≤ inst.currentHealth ∧
      0 ≤ (applyDamage cat inst amount).1.currentHealth ∧
      (applyDamage cat inst amount).1.currentHealth ≤
        (describe cat (applyDamage cat inst amount).1.type).maxHealth ∧
      ((applyDamage cat inst amount).1.currentHealth = 0 →
        (applyDamage cat inst amount).1.state = .Dead) ∧
      ((applyDamage cat inst amount).2 =
        if inst.state ≠ .Dead ∧ (applyDamage cat inst amount).1.currentHealth = 0
        then [.Death inst.id] else []) ∧
      (inst.state = .Dead → applyDamage cat inst amount = (inst, [])) ∧
      (applyDamage cat inst amount).1.inRange cat := by
  have hmax : 0 ≤ (describe cat inst.type).maxHealth :=
    le_of_lt (maxHealth_pos_of_load hload inst.type)
  have hb := clampHealth_bounds (describe cat inst.type).maxHealth
    (inst.currentHealth - amount) hmax
  have hle := clampHealth_sub_le (describe cat inst.type).maxHealth inst.currentHealth amount
    hrange.1 hamount
  by_cases hdead : inst.state = .Dead
  · simp [applyDamage, hdead, hrange.1, hrange.2.1, hrange]
  · by_cases hz : clampHealth (describe cat inst.type).maxHealth
        (inst.currentHealth - amount) = 0
    · simp [applyDamage, hdead, hz, hrange.1, hmax, CharacterInstance.inRange, hrange.2.2]
    · simp [applyDamage, hdead, hz, hb.1, hb.2, hle, CharacterInstance.inRange, hrange.2.2]

/-- Witness for C6: 25 damage on the rat with 5 health: the health does not
increase, and it ends at 0 in state `Dead` with one `Death` event. -/
theorem applyDamage_clamps_witness :
    (0 : Int) ≤ 25 ∧ sampleRat.inRange sampleCatalog ∧
      (applyDamage sampleCatalog sampleRat 25).1.currentHealth ≤ sampleRat.currentHealth ∧
      applyDamage sampleCatalog sampleRat 25 =
        ({ sampleRat with currentHealth := 0, state := .Dead }, [.Death 7]) :=
  ⟨by decide, by decide,
   (applyDamage_clamps sampleRows sampleCatalog loadCatalog_sampleRows sampleRat 25
     (by decide) (by decide)).1,
   by decide⟩

theorem spawn_inRange (rows : List ArchetypeRow) (cat : ArchetypeCatalog)
    (hload : loadCatalog rows = .ok cat) (id : Nat) (raw : Int) (pos : Position)
    (inst : CharacterInstance) (h : spawn cat id raw pos = .ok inst) : inst.inRange cat := by
  unfold spawn at h
  split at h
  · cases h
  · rename_i t _
    cases h
    have hpos := maxHealth_pos_of_load hload t
    exact ⟨le_of_lt hpos, le_refl _, le_refl _⟩

theorem tickCooldown_inRange (cat : ArchetypeCatalog) (inst : CharacterInstance)
    (h : inst.inRange cat) : (tickCooldown inst).inRange cat :=
  ⟨h.1, h.2.1, le_max_right _ _⟩

theorem advance_inRange (cat : ArchetypeCatalog) (inst : CharacterInstance) (tr : Trigger)
    (h : inst.inRange cat) : (advance inst tr).inRange cat :=
  ⟨h.1, h.2.1, h.2.2⟩

theorem transition_eq_dead (s : CombatState) (c : Int) (tr : Trigger) :
    transition s c tr = .Dead ↔ s = .Dead := by
  cases s <;> cases tr <;> simp [transition] <;> split <;> simp

theorem applyDamage_id (cat : ArchetypeCatalog) (inst : CharacterInstance) (amount : Int) :
    (applyDamage cat inst amount).1.id = inst.id := by
  unfold applyDamage
  split
  · rfl
  · dsimp only
    split <;> rfl

theorem applyOp_id (cat : ArchetypeCatalog) (inst : CharacterInstance) (op : Op) :
    (applyOp cat inst op).1.id = inst.id := by
  cases op
  · exact applyDamage_id cat inst _
  · rfl
  · rfl

theorem applyOp_dead (cat : ArchetypeCatalog) (inst : CharacterInstance) (op : Op)
    (h : inst.state = .Dead) :
    (applyOp cat inst op).1.state = .Dead ∧ (applyOp cat inst op).2 = [] := by
  cases op
  · simp [applyOp, applyDamage, h]
  · simp [applyOp, tickCooldown, h]
  · simp [applyOp, advance, h, transition]

theorem applyOp_events (cat : ArchetypeCatalog) (inst : CharacterInstance) (op : Op)
    (h : inst.state ≠ .Dead) :
    (applyOp cat inst op).2 =
      if (applyOp cat inst op).1.state = .Dead then [.Death inst.id] else [] := by
  cases op with
  | damage amount =>
    by_cases hz : clampHealth (describe cat inst.type).maxHealth
        (inst.currentHealth - amount) = 0
    · simp [applyOp, applyDamage, h, hz]
    · simp [applyOp, applyDamage, h, hz]
  | cooldown => simp [applyOp, tickCooldown, h]
  | advance tr =>
    have hne : transition inst.state inst.cooldownRemaining tr ≠ .Dead :=
      fun heq => h ((transition_eq_dead _ _ _).mp heq)
    simp [applyOp, advance, hne]

theorem runOps_cons (cat : ArchetypeCatalog) (inst : CharacterInstance) (op : Op)
    (ops : List Op) :
    runOps cat inst (op :: ops) =
      ((runOps cat (applyOp cat inst op).1 ops).1,
        (applyOp cat inst op).2 ++ (runOps cat (applyOp cat inst op).1 ops).2) := rfl

theorem runOps_id (cat : ArchetypeCatalog) (inst : CharacterInstance) (ops : List Op) :
    (runOps cat inst ops).1.id = inst.id := by
  induction ops generalizing inst with
  | nil => rfl
  | cons op ops ih =>
    rw [runOps_cons]
    show (runOps cat (applyOp cat inst op).1 ops).1.id = inst.id
    rw [ih, applyOp_id]

theorem runOps_dead (cat : ArchetypeCatalog) (inst : CharacterInstance) (ops : List Op)
    (h : inst.state = .Dead) :
    (runOps cat inst ops).1.state = .Dead ∧ (runOps cat inst ops).2 = [] := by
  induction ops generalizing inst with
  | nil => exact ⟨h, rfl⟩
  | cons op ops ih =>
    have hop := applyOp_dead cat inst op h
    have hrest := ih (applyOp cat inst op).1 hop.1
    rw [runOps_cons]
    exact ⟨hrest.1, by simp [hop.2, hrest.2]⟩

theorem runOps_append (cat : ArchetypeCatalog) (inst : CharacterInstance) (a b : List Op) :
    runOps cat inst (a ++ b) =
      ((runOps cat (runOps cat inst a).1 b).1,
        (runOps cat inst a).2 ++ (runOps cat (runOps cat inst a).1 b).2) := by
  induction a generalizing inst with
  | nil => simp [runOps]
  | cons op a ih =>
    rw [List.cons_append, runOps_cons, runOps_cons, ih]
    simp [List.append_assoc]

theorem runOps_log (cat : ArchetypeCatalog) (inst : CharacterInstance) (ops : List Op) :
    (runOps cat inst ops).2 =
      if inst.state ≠ .Dead ∧ (runOps cat inst ops).1.state = .Dead
      then [.Death inst.id] else [] := by
  induction ops generalizing inst with
  | nil => simp [runOps]
  | cons op ops ih =>
    by_cases h : inst.state = .Dead
    · have hd := runOps_dead cat inst (op :: ops) h
      simp [hd.2, h]
    · have hev := applyOp_events cat inst op h
      by_cases h1 : (applyOp cat inst op).1.state = .Dead
      · have hd := runOps_dead cat (applyOp cat inst op).1 ops h1
        rw [runOps_cons]
        simp [hd.1, hd.2, hev, h, h1]
      · have hrest := ih (applyOp cat inst op).1
        rw [runOps_cons]
        simp [hrest, hev, applyOp_id, h, h1]

theorem deadEntries_dead (cat : ArchetypeCatalog) (inst : CharacterInstance) (ops : List Op)
    (h : inst.state = .Dead) : deadEntries cat inst ops = 0 := by
  induction ops generalizing inst with
  | nil => rfl
  | cons op ops ih =>
    have hop := applyOp_dead cat inst op h
    simp [deadEntries, h, ih (applyOp cat inst op).1 hop.1]

theorem runOps_deathCount (cat : ArchetypeCatalog) (inst : CharacterInstance) (ops : List Op) :
    deathCount inst.id (runOps cat inst ops).2 = deadEntries cat inst ops := by
  induction ops generalizing inst with
  | nil => rfl
  | cons op ops ih =>
    have hrest := ih (applyOp cat inst op).1
    rw [applyOp_id] at hrest
    rw [runOps_cons]
    unfold deathCount at hrest ⊢
    by_cases h : inst.state = .Dead
    · have hop := applyOp_dead cat inst op h
      simp [deadEntries, h, hop.2, hrest]
    · have hev := applyOp_events cat inst op h
      by_cases h1 : (applyOp cat inst op).1.state = .Dead
      · simp [deadEntries, h, h1, hev, hrest, Nat.add_comm]
      · simp [deadEntries, h, h1, hev, hrest]

/-- C7: `Dead` is terminal and the `Death` event is emitted once.  For every instance:
(1) no operation moves a `Dead` instance to another state, and none
emits an event for it; (2) once a run of operations, or of ticks, has left the instance
`Dead`, any continuation leaves it `Dead` and adds nothing to the
event log; (3) along any run the number of `Death` events of the instance
equals the number of its transitions into `Dead`, which is 1 when the instance
started in another state and ended `Dead`, and 0 otherwise. -/
theorem dead_terminal_single_death (cat : ArchetypeCatalog) (inst : CharacterInstance) :
    (∀ op : Op, inst.state = .Dead →
        (applyOp cat inst op).1.state = .Dead ∧ (applyOp cat inst op).2 = []) ∧
      (∀ ops later : List Op, (runOps cat inst ops).1.state = .Dead →
        (runOps cat inst (ops ++ later)).1.state = .Dead ∧
          (runOps cat inst (ops ++ later)).2 = (runOps cat inst ops).2) ∧
      (∀ ticks later : List TickInput, (runTicks cat inst ticks).1.state = .Dead →
        (runTicks cat inst (ticks ++ later)).1.state = .Dead ∧
          (runTicks cat inst (ticks ++ later)).2 = (runTicks cat inst ticks).2) ∧
      (∀ ops : List Op,
        deathCount inst.id (runOps cat inst ops).2 = deadEntries cat inst ops ∧
          deadEntries cat inst ops =
            if inst.state ≠ .Dead ∧ (runOps cat inst ops).1.state = .Dead then 1 else 0) ∧
      (∀ ticks : List TickInput,
        deathCount inst.id (runTicks cat inst ticks).2 =
          if inst.state ≠ .Dead ∧ (runTicks cat inst ticks).1.state = .Dead then 1 else 0) := by
  have happ : ∀ ops later : List Op, (runOps cat inst ops).1.state = .Dead →
      (runOps cat inst (ops ++ later)).1.state = .Dead ∧
        (runOps cat inst (ops ++ later)).2 = (runOps cat inst ops).2 := by
    intro ops later h
    have hd := runOps_dead cat (runOps cat inst ops).1 later h
    rw [runOps_append]
    exact ⟨hd.1, by simp [hd.2]⟩
  have hcount : ∀ ops : List Op,
      deathCount inst.id (runOps cat inst ops).2 =
        if inst.state ≠ .Dead ∧ (runOps cat inst ops).1.state = .Dead then 1 else 0 := by
    intro ops
    rw [runOps_log]
    unfold deathCount
    split <;> simp
  refine ⟨fun op h => applyOp_dead cat inst op h, happ, ?_, ?_, ?_⟩
  · intro ticks later h
    unfold runTicks at h ⊢
    rw [List.flatMap_append]
    exact happ _ _ h
  · intro ops
    exact ⟨runOps_deathCount cat inst ops, by rw [← runOps_deathCount]; exact hcount ops⟩
  · intro ticks
    exact hcount _

/-- Witness for C7: `sampleRat` dies on the second of `sampleTicks`; after all
four ticks it is still `Dead` and the log holds the one `Death` event. -/
theorem dead_terminal_single_death_witness :
    (runTicks sampleCatalog sampleRat (sampleTicks.take 2)).1.state = .Dead ∧
      (runTicks sampleCatalog sampleRat (sampleTicks.take 2 ++ sampleTicks.drop 2)).1.state
        = .Dead ∧
      (runTicks sampleCatalog sampleRat (sampleTicks.take 2 ++ sampleTicks.drop 2)).2
        = [.Death 7] :=
  ⟨by decide,
   ((dead_terminal_single_death sampleCatalog sampleRat).2.2.1
      (sampleTicks.take 2) (sampleTicks.drop 2) (by decide)).1,
   ((dead_terminal_single_death sampleCatalog sampleRat).2.2.1
      (sampleTicks.take 2) (sampleTicks.drop 2) (by decide)).2.trans (by decide)⟩

end Instance

end Maky
